import Mathlib

/-!
# Verification of the registry-service worker registry

Shallow embedding of `internal/registry/registry.go` (identity-keyed
variant), `internal/registry/worker.go` and the store adapter
`internal/database/database.go` of the registry-service repository,
together with proofs about the Registry operations: RegisterWorker,
UpdateHealth, CheckAllWorkers (the health sweep with its probe-with-retry
protocol), RemoveWorker, startup hydration (loadWorkersFromDB /
NewRegistry) and the stop signal (StopHealthCheck).

The Go map `workers map[string]*Worker` is embedded as an association
list with unique keys; Go map assignment is `mapInsert` (replace the
entry in place, append when absent), `delete` is `mapErase`, indexing is
`mapLookup`.  Timestamps (`time.Now()`) are passed in as explicit `now`
arguments.  Store calls and metrics emissions are recorded as lists of
emitted operations; where a claim depends on the *outcome* of a store
call, variants parameterised by a `StoreOutcome` embed the
`if err := ...; err != nil { log }` control flow of the source.
-/

namespace RegistryService

/-- `Worker` from `internal/registry/worker.go`: host, HTTP port, gRPC
port, health flag and last-health-check timestamp. -/
structure Worker where
  host : String
  httpPort : Int
  grpcPort : Int
  isHealthy : Bool
  lastHealthCheck : Nat
deriving Repr, DecidableEq

/-- The in-memory cache `workers map[string]*Worker`, embedded as an
association list from worker identity to `Worker`. -/
abbrev WMap := List (String × Worker)

/-- Go map indexing `r.workers[id]`. -/
def mapLookup : WMap → String → Option Worker
  | [], _ => none
  | (k, w) :: rest, id => if k = id then some w else mapLookup rest id

/-- Go map assignment `r.workers[id] = w`: replace the existing entry in
place, append a new entry when the key is absent. -/
def mapInsert : WMap → String → Worker → WMap
  | [], id, w => [(id, w)]
  | (k, w0) :: rest, id, w =>
      if k = id then (id, w) :: rest else (k, w0) :: mapInsert rest id w

/-- Go `delete(r.workers, id)`. -/
def mapErase : WMap → String → WMap
  | [], _ => []
  | (k, w) :: rest, id =>
      if k = id then mapErase rest id else (k, w) :: mapErase rest id

/-- Number of cache entries stored under a given identity. -/
def countKey (m : WMap) (id : String) : Nat :=
  m.countP (fun p => p.1 = id)

/-- The keys of the cache are pairwise distinct (the Go map structural
invariant). -/
def keysNodup (m : WMap) : Prop :=
  (m.map Prod.fst).Nodup

instance (m : WMap) : Decidable (keysNodup m) := by
  unfold keysNodup; infer_instance

theorem mapLookup_insert_self (m : WMap) (id : String) (w : Worker) :
    mapLookup (mapInsert m id w) id = some w := by
  induction m with
  | nil => simp [mapInsert, mapLookup]
  | cons p rest ih =>
      obtain ⟨k, w0⟩ := p
      by_cases hk : k = id
      · simp [mapInsert, hk, mapLookup]
      · simp [mapInsert, hk, mapLookup, ih]

theorem mapLookup_insert_ne (m : WMap) (id k : String) (w : Worker)
    (hne : k ≠ id) : mapLookup (mapInsert m id w) k = mapLookup m k := by
  have hne2 : ¬ (id = k) := fun h => hne h.symm
  induction m with
  | nil => simp [mapInsert, mapLookup, hne2]
  | cons p rest ih =>
      obtain ⟨k0, w0⟩ := p
      by_cases hk : k0 = id
      · subst hk
        simp [mapInsert, mapLookup, hne2]
      · by_cases hk2 : k0 = k
        · simp [mapInsert, hk, mapLookup, hk2, hne]
        · simp [mapInsert, hk, mapLookup, hk2, ih]

theorem mapLookup_erase_self (m : WMap) (id : String) :
    mapLookup (mapErase m id) id = none := by
  induction m with
  | nil => rfl
  | cons p rest ih =>
      obtain ⟨k0, w0⟩ := p
      by_cases hk : k0 = id
      · simpa [mapErase, hk] using ih
      · simpa [mapErase, mapLookup, hk] using ih

theorem mapLookup_erase_ne (m : WMap) (id k : String) (hne : k ≠ id) :
    mapLookup (mapErase m id) k = mapLookup m k := by
  have hne2 : ¬ (id = k) := fun h => hne h.symm
  induction m with
  | nil => rfl
  | cons p rest ih =>
      obtain ⟨k0, w0⟩ := p
      by_cases hk : k0 = id
      · simp [mapErase, mapLookup, hk, hne2, ih]
      · by_cases hk2 : k0 = k
        · simp [mapErase, mapLookup, hk, hk2, hne]
        · simp [mapErase, mapLookup, hk, hk2, ih]

theorem mem_mapInsert (m : WMap) (id : String) (w : Worker) (p : String × Worker)
    (hp : p ∈ mapInsert m id w) : p = (id, w) ∨ p ∈ m := by
  induction m with
  | nil =>
      simp [mapInsert] at hp
      exact Or.inl hp
  | cons q rest ih =>
      obtain ⟨k0, w0⟩ := q
      by_cases hk : k0 = id
      · simp [mapInsert, hk] at hp
        rcases hp with h | h
        · exact Or.inl (by simp [h])
        · exact Or.inr (List.mem_cons_of_mem _ h)
      · simp only [mapInsert, if_neg hk, List.mem_cons] at hp
        rcases hp with h | h
        · exact Or.inr (by simp [h])
        · rcases ih h with h2 | h2
          · exact Or.inl h2
          · exact Or.inr (List.mem_cons_of_mem _ h2)

theorem mem_mapErase (m : WMap) (id : String) (p : String × Worker)
    (hp : p ∈ mapErase m id) : p ∈ m := by
  induction m with
  | nil => simp [mapErase] at hp
  | cons q rest ih =>
      obtain ⟨k0, w0⟩ := q
      by_cases hk : k0 = id
      · simp only [mapErase, if_pos hk] at hp
        exact List.mem_cons_of_mem _ (ih hp)
      · simp only [mapErase, if_neg hk, List.mem_cons] at hp
        rcases hp with h | h
        · exact by simp [h]
        · exact List.mem_cons_of_mem _ (ih h)

theorem keys_mapInsert (m : WMap) (id : String) (w : Worker) :
    (mapInsert m id w).map Prod.fst =
      if id ∈ m.map Prod.fst then m.map Prod.fst else m.map Prod.fst ++ [id] := by
  induction m with
  | nil => simp [mapInsert]
  | cons p rest ih =>
      obtain ⟨k0, w0⟩ := p
      by_cases hk : k0 = id
      · simp [mapInsert, hk]
      · have hne : ¬ (id = k0) := fun h => hk h.symm
        by_cases hmem : id ∈ rest.map Prod.fst
        · simp [mapInsert, hk, ih, hmem, hne]
        · simp [mapInsert, hk, ih, hmem, hne]

theorem keysNodup_insert (m : WMap) (id : String) (w : Worker)
    (h : keysNodup m) : keysNodup (mapInsert m id w) := by
  unfold keysNodup at h ⊢
  rw [keys_mapInsert]
  by_cases hmem : id ∈ m.map Prod.fst
  · simpa [hmem] using h
  · rw [if_neg hmem, List.nodup_append]
    refine ⟨h, List.nodup_singleton id, ?_⟩
    intro a ha hb
    rw [List.mem_singleton] at hb
    subst hb
    exact hmem ha

theorem keys_erase_sublist (m : WMap) (id : String) :
    List.Sublist ((mapErase m id).map Prod.fst) (m.map Prod.fst) := by
  induction m with
  | nil => simp [mapErase]
  | cons p rest ih =>
      obtain ⟨k0, w0⟩ := p
      by_cases hk : k0 = id
      · simp only [mapErase, if_pos hk, List.map_cons]
        exact ih.cons k0
      · simp only [mapErase, if_neg hk, List.map_cons]
        exact ih.cons₂ k0

theorem keysNodup_erase (m : WMap) (id : String)
    (h : keysNodup m) : keysNodup (mapErase m id) := by
  unfold keysNodup at h ⊢
  exact h.sublist (keys_erase_sublist m id)

theorem countKey_eq_zero (m : WMap) (id : String)
    (h : id ∉ m.map Prod.fst) : countKey m id = 0 := by
  unfold countKey
  rw [List.countP_eq_zero]
  intro p hp
  simp only [decide_eq_true_eq]
  intro habs
  exact h (habs ▸ List.mem_map_of_mem Prod.fst hp)

theorem countKey_le_one (m : WMap) (id : String) (h : keysNodup m) :
    countKey m id ≤ 1 := by
  induction m with
  | nil => simp [countKey]
  | cons p rest ih =>
      obtain ⟨k0, w0⟩ := p
      unfold keysNodup at h
      rw [List.map_cons, List.nodup_cons] at h
      obtain ⟨hk0, hrest⟩ := h
      rw [countKey, List.countP_cons]
      by_cases hk : k0 = id
      · have hz : countKey rest id = 0 := countKey_eq_zero rest id (hk ▸ hk0)
        rw [countKey] at hz
        simp [hz, hk]
      · have hle := ih hrest
        rw [countKey] at hle
        simp only [hk, decide_False, if_false]
        simpa using hle

theorem countKey_pos_of_lookup (m : WMap) (id : String) (w : Worker)
    (h : mapLookup m id = some w) : 1 ≤ countKey m id := by
  induction m with
  | nil => simp [mapLookup] at h
  | cons p rest ih =>
      obtain ⟨k0, w0⟩ := p
      rw [countKey, List.countP_cons]
      by_cases hk : k0 = id
      · simp [hk]
      · rw [mapLookup, if_neg hk] at h
        have hle := ih h
        rw [countKey] at hle
        simp only [hk, decide_False, if_false]
        simpa using hle

theorem lookup_mem_keys (m : WMap) (k : String) (w : Worker)
    (h : mapLookup m k = some w) : k ∈ m.map Prod.fst := by
  induction m with
  | nil => simp [mapLookup] at h
  | cons p rest ih =>
      obtain ⟨k0, w0⟩ := p
      by_cases hk : k0 = k
      · simp [hk]
      · rw [mapLookup, if_neg hk] at h
        simpa using Or.inr (ih h)

/-! ## Emitted effects

Calls made by Registry operations to the store adapter
(`internal/database/database.go`) and to the metrics collaborator
(`observability.RecordWorkerHealth`) are recorded as events. -/

/-- A call issued to the store: `db.InsertWorker`, `db.UpdateWorkerHealth`
or `db.DeleteWorker`. -/
inductive StoreOp where
  | insertWorker (id host : String) (httpPort grpcPort : Int)
  | updateWorkerHealth (id : String) (isHealthy : Bool)
  | deleteWorker (id : String)
deriving Repr, DecidableEq

/-- A metrics emission `observability.RecordWorkerHealth(id, url, h)`. -/
inductive MetricEvent where
  | recordWorkerHealth (id url : String) (isHealthy : Bool)
deriving Repr, DecidableEq

/-- `middleware.GetURLFromHostPort`: `"http://" + net.JoinHostPort(host,
port)`; `net.JoinHostPort` brackets the host when it contains a colon. -/
def getURLFromHostPort (host : String) (port : Int) : String :=
  if host.contains ':' then
    "http://[" ++ host ++ "]:" ++ toString port
  else
    "http://" ++ host ++ ":" ++ toString port

/-- Result of one Registry operation: the cache afterwards and the store
calls and metrics events it issued, in order. -/
structure RegEffects where
  cache : WMap
  storeOps : List StoreOp
  metrics : List MetricEvent
deriving Repr, DecidableEq

/-- `Registry.RegisterWorker(id, host, httpPort, grpcPort)`
(`registry.go:88-118`).  On a cache miss a new healthy entry is inserted
in cache and store; on a hit the existing entry is marked healthy with a
refreshed timestamp and a health update (not an insert) is written
through.  In both branches `RecordWorkerHealth` is emitted with the
*supplied* host and port. -/
def registerWorker (m : WMap) (id host : String) (httpPort grpcPort : Int)
    (now : Nat) : RegEffects :=
  match mapLookup m id with
  | none =>
      let w : Worker :=
        { host := host, httpPort := httpPort, grpcPort := grpcPort,
          isHealthy := true, lastHealthCheck := now }
      { cache := mapInsert m id w
        storeOps := [StoreOp.insertWorker id host httpPort grpcPort]
        metrics := [MetricEvent.recordWorkerHealth id
          (getURLFromHostPort host httpPort) true] }
  | some w =>
      let w2 := { w with isHealthy := true, lastHealthCheck := now }
      { cache := mapInsert m id w2
        storeOps := [StoreOp.updateWorkerHealth id true]
        metrics := [MetricEvent.recordWorkerHealth id
          (getURLFromHostPort host httpPort) true] }

/-- `Registry.UpdateHealth(id, isHealthy)` (`registry.go:121-144`).
Absent identity: nothing happens.  Present with unchanged health value:
nothing happens (no store write, no metrics, no timestamp refresh).
Present with changed value: flag and timestamp updated, health update
written through, metrics emitted with the entry's own host and port. -/
def updateHealth (m : WMap) (id : String) (isHealthy : Bool) (now : Nat) :
    RegEffects :=
  match mapLookup m id with
  | none => { cache := m, storeOps := [], metrics := [] }
  | some w =>
      if w.isHealthy ≠ isHealthy then
        let w2 := { w with isHealthy := isHealthy, lastHealthCheck := now }
        { cache := mapInsert m id w2
          storeOps := [StoreOp.updateWorkerHealth id isHealthy]
          metrics := [MetricEvent.recordWorkerHealth id
            (getURLFromHostPort w.host w.httpPort) isHealthy] }
      else
        { cache := m, storeOps := [], metrics := [] }

/-- `Registry.RemoveWorker(key)` (`registry.go:218-229`): delete from the
cache, then issue a best-effort store delete. -/
def removeWorker (m : WMap) (id : String) : RegEffects :=
  { cache := mapErase m id
    storeOps := [StoreOp.deleteWorker id]
    metrics := [] }

/-! ## Store-outcome-sensitive variants

The source checks each store call's error only to log it:
`if err := r.db.InsertWorker(...); err != nil { logger.Info(...) }`.
These variants take the outcome of the store call as an input and return
the cache, embedding that control flow branch by branch; the operations
have no error result (the Go methods return nothing). -/

/-- Outcome of a store call as seen by the Registry. -/
inductive StoreOutcome where
  | ok
  | failed
deriving Repr, DecidableEq

/-- `RegisterWorker` with the store call's outcome made explicit.  In the
miss branch the cache insert happens before `db.InsertWorker`; the error
branch only logs. -/
def registerWorkerStore (m : WMap) (id host : String)
    (httpPort grpcPort : Int) (now : Nat) (outcome : StoreOutcome) : WMap :=
  match mapLookup m id with
  | none =>
      let w : Worker :=
        { host := host, httpPort := httpPort, grpcPort := grpcPort,
          isHealthy := true, lastHealthCheck := now }
      let m2 := mapInsert m id w
      match outcome with
      | StoreOutcome.ok => m2
      | StoreOutcome.failed => m2
  | some w =>
      let w2 := { w with isHealthy := true, lastHealthCheck := now }
      let m2 := mapInsert m id w2
      match outcome with
      | StoreOutcome.ok => m2
      | StoreOutcome.failed => m2

/-- `UpdateHealth` with the store call's outcome made explicit. -/
def updateHealthStore (m : WMap) (id : String) (isHealthy : Bool)
    (now : Nat) (outcome : StoreOutcome) : WMap :=
  match mapLookup m id with
  | none => m
  | some w =>
      if w.isHealthy ≠ isHealthy then
        let m2 := mapInsert m id
          { w with isHealthy := isHealthy, lastHealthCheck := now }
        match outcome with
        | StoreOutcome.ok => m2
        | StoreOutcome.failed => m2
      else m

/-- `RemoveWorker` with the store call's outcome made explicit: the cache
delete happens before `db.DeleteWorker`, whose error is only logged. -/
def removeWorkerStore (m : WMap) (id : String) (outcome : StoreOutcome) :
    WMap :=
  let m2 := mapErase m id
  match outcome with
  | StoreOutcome.ok => m2
  | StoreOutcome.failed => m2

/-! ## The probe and the health sweep -/

/-- What one probe attempt produced: `http.NewRequest` failed, the client
call failed (transport error or timeout), or an HTTP response with a
status code arrived. -/
inductive ProbeResp where
  | reqError
  | transportError
  | status (code : Nat)
deriving Repr, DecidableEq

/-- `getWorkerHealth(url, apiKey)` (`registry.go:146-175`) reduced to the
attempt's outcome: false on request-construction failure, false on
transport failure, otherwise `resp.StatusCode == http.StatusOK`. -/
def getWorkerHealth : ProbeResp → Bool
  | ProbeResp.reqError => false
  | ProbeResp.transportError => false
  | ProbeResp.status code => code == 200

/-- `retries := 4` in `CheckAllWorkers` (`registry.go:192`). -/
def retries : Nat := 4

/-- The inner retry loop of `CheckAllWorkers` for one worker, with the
outcome of attempt `i` supplied by `att i`.  Returns the final value of
`isHealthy` and the number of attempts performed: the loop stops at the
first healthy attempt, else runs through the whole budget. -/
def probeLoop (att : Nat → ProbeResp) : Nat → Nat → Bool × Nat
  | _, 0 => (false, 0)
  | i, rem + 1 =>
      if getWorkerHealth (att i) then (true, 1)
      else
        let p := probeLoop att (i + 1) rem
        (p.1, p.2 + 1)

/-- The probe-with-retry protocol: run the budget of `retries` attempts
starting at attempt 0. -/
def probeWithRetry (att : Nat → ProbeResp) : Bool × Nat :=
  probeLoop att 0 retries

/-- One iteration of the sweep's outer loop (`registry.go:187-214`) for a
given key: run the retry loop; on success call `UpdateHealth(key, true)`,
on exhaustion call `RemoveWorker(key)`; accumulate the emitted events. -/
def sweepStep (att : String → Nat → ProbeResp) (now : Nat)
    (acc : RegEffects) (key : String) : RegEffects :=
  if (probeWithRetry (att key)).1 then
    let e := updateHealth acc.cache key true now
    { cache := e.cache
      storeOps := acc.storeOps ++ e.storeOps
      metrics := acc.metrics ++ e.metrics }
  else
    let e := removeWorker acc.cache key
    { cache := e.cache
      storeOps := acc.storeOps ++ e.storeOps
      metrics := acc.metrics ++ e.metrics }

/-- Sequential semantics of `Registry.CheckAllWorkers()`
(`registry.go:177-215`): the keys present when the sweep starts are
iterated in order, each one probed with the retry protocol and then
updated or evicted against the current cache. -/
def checkAllWorkers (m : WMap) (att : String → Nat → ProbeResp)
    (now : Nat) : RegEffects :=
  (m.map Prod.fst).foldl (sweepStep att now)
    { cache := m, storeOps := [], metrics := [] }

/-! ## Stop channel and construction -/

/-- State of the Go channel `stopHealthCheck chan struct{}`: the zero
value `nil`, an open made channel, or a closed channel. -/
inductive ChanState where
  | nilChan
  | openChan
  | closedChan
deriving Repr, DecidableEq

/-- A fault raised by the Go runtime. -/
inductive GoFault where
  | closeOfNilChannel
  | closeOfClosedChannel
deriving Repr, DecidableEq

/-- Go `close(ch)`: closing a nil channel or an already-closed channel
panics; otherwise the channel becomes closed. -/
def closeChan : ChanState → Except GoFault ChanState
  | ChanState.nilChan => Except.error GoFault.closeOfNilChannel
  | ChanState.openChan => Except.ok ChanState.closedChan
  | ChanState.closedChan => Except.error GoFault.closeOfClosedChannel

/-- Whether a receive `<-ch` on a `chan struct{}` that is never sent to
can fire: only when the channel is closed.  A receive on a nil channel
blocks forever. -/
def chanReceiveReady : ChanState → Bool
  | ChanState.closedChan => true
  | _ => false

/-- A worker record as decoded from the store in `loadWorkersFromDB`
(`registry.go:45-51`): fields `id`, `host`, `http_port`, `grpc_port`,
`is_healthy`, `last_health_check`. -/
structure DBRecord where
  id : String
  host : String
  httpPort : Int
  grpcPort : Int
  isHealthy : Bool
  lastHealthCheck : Nat
deriving Repr, DecidableEq

/-- The `Worker` built from a stored record in `loadWorkersFromDB`. -/
def DBRecord.toWorker (r : DBRecord) : Worker :=
  { host := r.host, httpPort := r.httpPort, grpcPort := r.grpcPort,
    isHealthy := r.isHealthy, lastHealthCheck := r.lastHealthCheck }

/-- A failure of the store's `GetAllWorkers`. -/
inductive StoreError where
  | listAllFailed
deriving Repr, DecidableEq

/-- The hydration loop of `loadWorkersFromDB`: `r.workers[id] = &Worker{...}`
for each record in order, starting from the given map. -/
def hydrateFrom (m : WMap) (recs : List DBRecord) : WMap :=
  recs.foldl (fun acc r => mapInsert acc r.id r.toWorker) m

/-- `Registry.loadWorkersFromDB()` (`registry.go:39-62`): a failure of
`GetAllWorkers` is fatal (`log.Fatalf` aborts construction, embedded as
an error result); otherwise every record is loaded into the fresh map. -/
def loadWorkersFromDB (listAll : Except StoreError (List DBRecord)) :
    Except StoreError WMap :=
  match listAll with
  | Except.error e => Except.error e
  | Except.ok recs => Except.ok (hydrateFrom [] recs)

/-- The fields of `Registry` observable in this embedding. -/
structure RegistryState where
  workers : WMap
  checkInterval : Nat
  stopHealthCheck : ChanState
deriving Repr, DecidableEq

/-- `NewRegistry(db, checkInterval)` (`registry.go:27-36`): the struct
literal initialises `workers`, `db` and `checkInterval` only, so
`stopHealthCheck` keeps its zero value `nil`; then the cache is hydrated
from the store (fatal on failure) and the health-check loop starts. -/
def newRegistry (listAll : Except StoreError (List DBRecord))
    (interval : Nat) : Except StoreError RegistryState :=
  match loadWorkersFromDB listAll with
  | Except.error e => Except.error e
  | Except.ok m =>
      Except.ok { workers := m, checkInterval := interval,
                  stopHealthCheck := ChanState.nilChan }

/-- `Registry.StopHealthCheck()` (`registry.go:83-85`):
`close(r.stopHealthCheck)`. -/
def stopHealthCheckOp (r : RegistryState) : Except GoFault RegistryState :=
  match closeChan r.stopHealthCheck with
  | Except.error f => Except.error f
  | Except.ok c => Except.ok { r with stopHealthCheck := c }

/-- Whether the `select` in `startHealthCheckLoop` (`registry.go:71-79`)
can take the stop branch and return: it requires the receive on
`r.stopHealthCheck` to fire. -/
def loopCanExit (r : RegistryState) : Bool :=
  chanReceiveReady r.stopHealthCheck

/-! ## Reference semantics of the sweep's snapshot

In Go, `workers := r.workers` copies the map *reference*, not its
contents: both names denote the same mutable map object.  A tiny heap of
map cells makes that observable: references are cell indices, the
registry's `workers` field holds a reference, and mutations made through
the registry are visible through any alias of the same reference. -/

/-- A heap of map cells; a Go map value is an index into it. -/
structure Heap where
  cells : List WMap
deriving Repr, DecidableEq

/-- Dereference a map reference. -/
def readRef (h : Heap) (ref : Nat) : WMap :=
  (h.cells.get? ref).getD []

/-- Overwrite the map object a reference denotes. -/
def writeRef (h : Heap) (ref : Nat) (m : WMap) : Heap :=
  { cells := h.cells.set ref m }

/-- The registry as a holder of a reference to the shared workers map. -/
structure RegRef where
  workersRef : Nat
deriving Repr, DecidableEq

/-- The snapshot step of `CheckAllWorkers` (`registry.go:181-183`):
`r.mutex.Lock(); workers := r.workers; r.mutex.Unlock()`.  The local
`workers` receives the same reference the registry holds — no map
contents are copied. -/
def sweepSnapshot (r : RegRef) : Nat :=
  r.workersRef

/-- A concurrent `RegisterWorker` mutating the shared map through the
registry's reference. -/
def registerInHeap (h : Heap) (r : RegRef) (id host : String)
    (httpPort grpcPort : Int) (now : Nat) : Heap :=
  writeRef h r.workersRef
    (registerWorker (readRef h r.workersRef) id host httpPort grpcPort now).cache

/-- The structure the sweep's `for key := range workers` loop iterates,
read through the snapshot at iteration time. -/
def sweepIterated (h : Heap) (snap : Nat) : WMap :=
  readRef h snap

/-! ## Operation sequences -/

/-- One Registry operation, for stating reachability invariants. -/
inductive RegOp where
  | register (id host : String) (httpPort grpcPort : Int) (now : Nat)
  | update (id : String) (isHealthy : Bool) (now : Nat)
  | sweep (att : String → Nat → ProbeResp) (now : Nat)
  | remove (id : String)

/-- Effect of one operation on the cache. -/
def applyOp (m : WMap) : RegOp → WMap
  | RegOp.register id host hp gp now => (registerWorker m id host hp gp now).cache
  | RegOp.update id h now => (updateHealth m id h now).cache
  | RegOp.sweep att now => (checkAllWorkers m att now).cache
  | RegOp.remove id => (removeWorker m id).cache

/-- Run a sequence of Registry operations from a starting cache. -/
def runOps (m : WMap) (ops : List RegOp) : WMap :=
  ops.foldl applyOp m

/-- Every entry present in the cache is marked healthy (decidable
form). -/
def allHealthyB (m : WMap) : Bool :=
  m.all (fun p => p.2.isHealthy)

/-- An operation that never writes `isHealthy=false` into an entry:
every operation except `UpdateHealth` with a `false` argument. -/
def benignOp : RegOp → Prop
  | RegOp.update _ h _ => h = true
  | _ => True

/-! ## Lemmas about the probe-with-retry loop -/

theorem probeLoop_snd_le (att : Nat → ProbeResp) (rem : Nat) :
    ∀ i, (probeLoop att i rem).2 ≤ rem := by
  induction rem with
  | zero => intro i; simp [probeLoop]
  | succ rem ih =>
      intro i
      by_cases h : getWorkerHealth (att i) = true
      · simp [probeLoop, h]
      · simp only [probeLoop, h, if_false, Bool.false_eq_true]
        have := ih (i + 1)
        omega

theorem probeLoop_all_fail (att : Nat → ProbeResp) (rem : Nat) :
    ∀ i, (∀ j, j < rem → getWorkerHealth (att (i + j)) = false) →
      probeLoop att i rem = (false, rem) := by
  induction rem with
  | zero => intro i _; rfl
  | succ rem ih =>
      intro i hfail
      have h0 : getWorkerHealth (att i) = false := by
        have := hfail 0 (Nat.succ_pos rem)
        simpa using this
      have hr : probeLoop att (i + 1) rem = (false, rem) := by
        apply ih
        intro j hj
        have := hfail (j + 1) (Nat.succ_lt_succ hj)
        simpa [Nat.add_assoc, Nat.add_comm 1 j] using this
      simp [probeLoop, h0, hr]

theorem probeLoop_first_success (att : Nat → ProbeResp) (k : Nat) :
    ∀ i rem, k < rem → getWorkerHealth (att (i + k)) = true →
      (∀ j, j < k → getWorkerHealth (att (i + j)) = false) →
      probeLoop att i rem = (true, k + 1) := by
  induction k with
  | zero =>
      intro i rem hlt hsucc _
      obtain ⟨rem0, rfl⟩ := Nat.exists_eq_succ_of_ne_zero (Nat.pos_iff_ne_zero.mp hlt)
      simp only [Nat.add_zero] at hsucc
      simp [probeLoop, hsucc]
  | succ k ih =>
      intro i rem hlt hsucc hfail
      obtain ⟨rem0, rfl⟩ := Nat.exists_eq_succ_of_ne_zero
        (Nat.pos_iff_ne_zero.mp (Nat.lt_of_le_of_lt (Nat.zero_le _) hlt))
      have h0 : getWorkerHealth (att i) = false := by
        have := hfail 0 (Nat.succ_pos k)
        simpa using this
      have hr : probeLoop att (i + 1) rem0 = (true, k + 1) := by
        apply ih
        · exact Nat.lt_of_succ_lt_succ hlt
        · have : i + 1 + k = i + (k + 1) := by omega
          rw [this]; exact hsucc
        · intro j hj
          have := hfail (j + 1) (Nat.succ_lt_succ hj)
          have heq : i + 1 + j = i + (j + 1) := by omega
          rw [heq]; exact this
      simp [probeLoop, h0, hr]

theorem probeLoop_true_iff (att : Nat → ProbeResp) (rem : Nat) :
    ∀ i, (probeLoop att i rem).1 = true ↔
      ∃ j, j < rem ∧ getWorkerHealth (att (i + j)) = true := by
  induction rem with
  | zero =>
      intro i
      simp [probeLoop]
  | succ rem ih =>
      intro i
      by_cases h : getWorkerHealth (att i) = true
      · simp only [probeLoop, h, if_true]
        constructor
        · intro _
          exact ⟨0, Nat.succ_pos rem, by simpa using h⟩
        · intro _; trivial
      · simp only [probeLoop, h, if_false, Bool.false_eq_true]
        rw [ih (i + 1)]
        constructor
        · rintro ⟨j, hj, hsucc⟩
          refine ⟨j + 1, Nat.succ_lt_succ hj, ?_⟩
          have heq : i + (j + 1) = i + 1 + j := by omega
          rw [heq]; exact hsucc
        · rintro ⟨j, hj, hsucc⟩
          match j with
          | 0 =>
              exact absurd (by simpa using hsucc) h
          | j + 1 =>
              refine ⟨j, Nat.lt_of_succ_lt_succ hj, ?_⟩
              have heq : i + 1 + j = i + (j + 1) := by omega
              rw [heq]; exact hsucc

theorem probeWithRetry_all_fail (att : Nat → ProbeResp)
    (h : ∀ j, j < retries → getWorkerHealth (att j) = false) :
    probeWithRetry att = (false, retries) := by
  apply probeLoop_all_fail
  intro j hj
  simpa using h j hj

theorem probeWithRetry_true_iff (att : Nat → ProbeResp) :
    (probeWithRetry att).1 = true ↔
      ∃ j, j < retries ∧ getWorkerHealth (att j) = true := by
  rw [probeWithRetry, probeLoop_true_iff]
  simp

/-! ## Lemmas about individual operations -/

theorem updateHealth_lookup_ne (m : WMap) (id k : String) (h : Bool)
    (now : Nat) (hne : k ≠ id) :
    mapLookup (updateHealth m id h now).cache k = mapLookup m k := by
  cases hm : mapLookup m id with
  | none => simp [updateHealth, hm]
  | some w =>
      by_cases hh : w.isHealthy ≠ h
      · simp [updateHealth, hm, hh, mapLookup_insert_ne, hne]
      · simp [updateHealth, hm, hh]

theorem updateHealth_true_lookup_self (m : WMap) (id : String) (now : Nat)
    (w : Worker) (hm : mapLookup m id = some w) :
    ∃ w2, mapLookup (updateHealth m id true now).cache id = some w2 ∧
      w2.isHealthy = true := by
  by_cases hh : w.isHealthy ≠ true
  · refine ⟨{ w with isHealthy := true, lastHealthCheck := now }, ?_, rfl⟩
    simp [updateHealth, hm, hh, mapLookup_insert_self]
  · have hw : w.isHealthy = true := by simpa using hh
    exact ⟨w, by simp [updateHealth, hm, hh], hw⟩

theorem removeWorker_lookup_ne (m : WMap) (id k : String) (hne : k ≠ id) :
    mapLookup (removeWorker m id).cache k = mapLookup m k :=
  mapLookup_erase_ne m id k hne

/-! ## Lemmas about the sweep fold -/

theorem sweepStep_lookup_ne (att : String → Nat → ProbeResp) (now : Nat)
    (acc : RegEffects) (key k : String) (hne : k ≠ key) :
    mapLookup (sweepStep att now acc key).cache k = mapLookup acc.cache k := by
  unfold sweepStep
  by_cases h : (probeWithRetry (att key)).1 = true
  · simp only [h, if_true]
    exact updateHealth_lookup_ne acc.cache key k true now hne
  · simp only [h, if_false]
    exact removeWorker_lookup_ne acc.cache key k hne

theorem sweepStep_storeOps_mono (att : String → Nat → ProbeResp) (now : Nat)
    (acc : RegEffects) (key : String) (op : StoreOp)
    (hop : op ∈ acc.storeOps) : op ∈ (sweepStep att now acc key).storeOps := by
  unfold sweepStep
  by_cases h : (probeWithRetry (att key)).1 = true
  · simp only [h, if_true]
    exact List.mem_append_left _ hop
  · simp only [h, if_false]
    exact List.mem_append_left _ hop

theorem sweepFold_lookup_skip (att : String → Nat → ProbeResp) (now : Nat)
    (keys : List String) :
    ∀ acc k, k ∉ keys →
      mapLookup ((keys.foldl (sweepStep att now) acc).cache) k =
        mapLookup acc.cache k := by
  induction keys with
  | nil => intro acc k _; rfl
  | cons key rest ih =>
      intro acc k hk
      have hne : k ≠ key := fun h => hk (h ▸ List.mem_cons_self key rest)
      have hrest : k ∉ rest := fun h => hk (List.mem_cons_of_mem key h)
      rw [List.foldl_cons, ih _ k hrest]
      exact sweepStep_lookup_ne att now acc key k hne

theorem sweepFold_storeOps_mono (att : String → Nat → ProbeResp) (now : Nat)
    (keys : List String) :
    ∀ acc op, op ∈ acc.storeOps →
      op ∈ ((keys.foldl (sweepStep att now) acc).storeOps) := by
  induction keys with
  | nil => intro acc op hop; exact hop
  | cons key rest ih =>
      intro acc op hop
      rw [List.foldl_cons]
      exact ih _ op (sweepStep_storeOps_mono att now acc key op hop)

/-! ## Preservation of the all-healthy property -/

theorem allHealthy_mapInsert (m : WMap) (id : String) (w : Worker)
    (hm : ∀ p ∈ m, (p : String × Worker).2.isHealthy = true)
    (hw : w.isHealthy = true) :
    ∀ p ∈ mapInsert m id w, (p : String × Worker).2.isHealthy = true := by
  intro p hp
  rcases mem_mapInsert m id w p hp with h | h
  · rw [h]; exact hw
  · exact hm p h

theorem allHealthy_mapErase (m : WMap) (id : String)
    (hm : ∀ p ∈ m, (p : String × Worker).2.isHealthy = true) :
    ∀ p ∈ mapErase m id, (p : String × Worker).2.isHealthy = true :=
  fun p hp => hm p (mem_mapErase m id p hp)

theorem allHealthy_registerWorker (m : WMap) (id host : String)
    (httpPort grpcPort : Int) (now : Nat)
    (hm : ∀ p ∈ m, (p : String × Worker).2.isHealthy = true) :
    ∀ p ∈ (registerWorker m id host httpPort grpcPort now).cache,
      (p : String × Worker).2.isHealthy = true := by
  intro p hp
  cases hm2 : mapLookup m id with
  | none =>
      simp only [registerWorker, hm2] at hp
      exact allHealthy_mapInsert m id _ hm rfl p hp
  | some w =>
      simp only [registerWorker, hm2] at hp
      exact allHealthy_mapInsert m id _ hm rfl p hp

theorem allHealthy_updateHealth_true (m : WMap) (id : String) (now : Nat)
    (hm : ∀ p ∈ m, (p : String × Worker).2.isHealthy = true) :
    ∀ p ∈ (updateHealth m id true now).cache,
      (p : String × Worker).2.isHealthy = true := by
  intro p hp
  cases hm2 : mapLookup m id with
  | none =>
      simp only [updateHealth, hm2] at hp
      exact hm p hp
  | some w =>
      by_cases hh : w.isHealthy ≠ true
      · simp [updateHealth, hm2, hh] at hp
        exact allHealthy_mapInsert m id _ hm rfl p hp
      · simp [updateHealth, hm2, hh] at hp
        exact hm p hp

theorem allHealthy_removeWorker (m : WMap) (id : String)
    (hm : ∀ p ∈ m, (p : String × Worker).2.isHealthy = true) :
    ∀ p ∈ (removeWorker m id).cache,
      (p : String × Worker).2.isHealthy = true :=
  allHealthy_mapErase m id hm

theorem allHealthy_sweepStep (att : String → Nat → ProbeResp) (now : Nat)
    (acc : RegEffects) (key : String)
    (hm : ∀ p ∈ acc.cache, (p : String × Worker).2.isHealthy = true) :
    ∀ p ∈ (sweepStep att now acc key).cache,
      (p : String × Worker).2.isHealthy = true := by
  unfold sweepStep
  by_cases h : (probeWithRetry (att key)).1 = true
  · simp only [h, if_true]
    exact allHealthy_updateHealth_true acc.cache key now hm
  · simp only [h, if_false, Bool.false_eq_true]
    exact allHealthy_removeWorker acc.cache key hm

theorem allHealthy_sweepFold (att : String → Nat → ProbeResp) (now : Nat)
    (keys : List String) :
    ∀ acc, (∀ p ∈ acc.cache, (p : String × Worker).2.isHealthy = true) →
      ∀ p ∈ ((keys.foldl (sweepStep att now) acc).cache),
        (p : String × Worker).2.isHealthy = true := by
  induction keys with
  | nil => intro acc hm; exact hm
  | cons key rest ih =>
      intro acc hm
      rw [List.foldl_cons]
      exact ih _ (allHealthy_sweepStep att now acc key hm)

theorem allHealthy_checkAllWorkers (m : WMap) (att : String → Nat → ProbeResp)
    (now : Nat) (hm : ∀ p ∈ m, (p : String × Worker).2.isHealthy = true) :
    ∀ p ∈ (checkAllWorkers m att now).cache,
      (p : String × Worker).2.isHealthy = true :=
  allHealthy_sweepFold att now (m.map Prod.fst) _ hm

theorem allHealthy_hydrateFrom (recs : List DBRecord) :
    ∀ m, (∀ p ∈ m, (p : String × Worker).2.isHealthy = true) →
      (∀ r ∈ recs, r.isHealthy = true) →
      ∀ p ∈ hydrateFrom m recs, (p : String × Worker).2.isHealthy = true := by
  induction recs with
  | nil => intro m hm _; exact hm
  | cons r rest ih =>
      intro m hm hrecs
      rw [hydrateFrom, List.foldl_cons]
      refine ih _ ?_ (fun r2 hr2 => hrecs r2 (List.mem_cons_of_mem r hr2))
      exact allHealthy_mapInsert m r.id r.toWorker hm
        (hrecs r (List.mem_cons_self r rest))

instance (op : RegOp) : Decidable (benignOp op) := by
  cases op <;> unfold benignOp <;> infer_instance

theorem allHealthy_runOps (ops : List RegOp) :
    ∀ m, (∀ p ∈ m, (p : String × Worker).2.isHealthy = true) →
      (∀ op ∈ ops, benignOp op) →
      ∀ p ∈ runOps m ops, (p : String × Worker).2.isHealthy = true := by
  induction ops with
  | nil => intro m hm _; exact hm
  | cons op rest ih =>
      intro m hm hops
      rw [runOps, List.foldl_cons]
      refine ih _ ?_ (fun op2 h2 => hops op2 (List.mem_cons_of_mem op h2))
      have hben := hops op (List.mem_cons_self op rest)
      cases op with
      | register id host hp gp now =>
          exact allHealthy_registerWorker m id host hp gp now hm
      | update id h now =>
          have : h = true := hben
          subst this
          exact allHealthy_updateHealth_true m id now hm
      | sweep att now =>
          exact allHealthy_checkAllWorkers m att now hm
      | remove id =>
          exact allHealthy_removeWorker m id hm

/-! ## Hydration lookup lemmas -/

theorem hydrateFrom_lookup_skip (recs : List DBRecord) :
    ∀ m k, k ∉ recs.map DBRecord.id →
      mapLookup (hydrateFrom m recs) k = mapLookup m k := by
  induction recs with
  | nil => intro m k _; rfl
  | cons r rest ih =>
      intro m k hk
      have hne : k ≠ r.id := by
        intro h
        exact hk (by rw [h]; exact List.mem_cons_self r.id _)
      have hrest : k ∉ rest.map DBRecord.id := by
        intro h
        exact hk (List.mem_cons_of_mem r.id h)
      rw [hydrateFrom, List.foldl_cons]
      rw [show (List.foldl (fun acc r2 => mapInsert acc r2.id r2.toWorker)
          (mapInsert m r.id r.toWorker) rest) =
        hydrateFrom (mapInsert m r.id r.toWorker) rest from rfl]
      rw [ih _ k hrest]
      exact mapLookup_insert_ne m r.id k r.toWorker hne

theorem hydrateFrom_lookup_mem (recs : List DBRecord) (r : DBRecord)
    (hmem : r ∈ recs) (hnodup : (recs.map DBRecord.id).Nodup) :
    ∀ m, mapLookup (hydrateFrom m recs) r.id = some r.toWorker := by
  intro m
  obtain ⟨pre, post, rfl⟩ := List.append_of_mem hmem
  have hids : (pre ++ r :: post).map DBRecord.id =
      pre.map DBRecord.id ++ r.id :: post.map DBRecord.id := by
    simp
  rw [hids] at hnodup
  rw [List.nodup_append] at hnodup
  obtain ⟨_, hcons, _⟩ := hnodup
  have hpost : r.id ∉ post.map DBRecord.id := (List.nodup_cons.mp hcons).1
  rw [show hydrateFrom m (pre ++ r :: post) =
      hydrateFrom (mapInsert (hydrateFrom m pre) r.id r.toWorker) post by
    rw [hydrateFrom, List.foldl_append, List.foldl_cons]; rfl]
  rw [hydrateFrom_lookup_skip post _ r.id hpost]
  exact mapLookup_insert_self _ r.id r.toWorker

/-! ## Claims -/

/-- C1, counterexample: the claim that every reachable state keeps
presence in the cache and being healthy synonymous is false as stated.
From the empty cache, `RegisterWorker("w1", "10.0.0.5", 8080, 9090)`
followed by `UpdateHealth("w1", false)` — both operations in the claim's
operation set — leaves `"w1"` present in the cache with
`IsHealthy=false`. -/
theorem C1_counterexample :
    allHealthyB (runOps []
      [RegOp.register "w1" "10.0.0.5" 8080 9090 0,
       RegOp.update "w1" false 1]) = false ∧
    mapLookup (runOps []
      [RegOp.register "w1" "10.0.0.5" 8080 9090 0,
       RegOp.update "w1" false 1]) "w1" =
      some { host := "10.0.0.5", httpPort := 8080, grpcPort := 9090,
             isHealthy := false, lastHealthCheck := 1 } := by
  exact ⟨rfl, rfl⟩

/-- C1 (amended): in every registry state reachable from startup
hydration of records whose stored health flag is true, by any sequence of
RegisterWorker, UpdateHealth-with-true, CheckAllWorkers and RemoveWorker
operations, every worker entry present in the in-memory cache has
IsHealthy=true.  (`UpdateHealth(id, false)` retains the entry with
`IsHealthy=false`, and hydration copies the stored flag verbatim, so
those two cases must be excluded; the sweep itself only ever calls
`UpdateHealth(key, true)` or `RemoveWorker(key)` and is covered.) -/
theorem C1_presence_implies_healthy (recs : List DBRecord) (ops : List RegOp)
    (hrecs : ∀ r ∈ recs, r.isHealthy = true)
    (hops : ∀ op ∈ ops, benignOp op) :
    ∀ p ∈ runOps (hydrateFrom [] recs) ops,
      (p : String × Worker).2.isHealthy = true := by
  refine allHealthy_runOps ops (hydrateFrom [] recs) ?_ hops
  exact allHealthy_hydrateFrom recs [] (by intro p hp; simp at hp) hrecs

/-- C1 witness: the amended invariant applied to a concrete hydration
record and operation sequence. -/
theorem C1_witness :
    allHealthyB (runOps (hydrateFrom []
        [{ id := "w0", host := "10.0.0.1", httpPort := 80, grpcPort := 81, isHealthy := true, lastHealthCheck := 0 }])
      [RegOp.register "w1" "10.0.0.5" 8080 9090 1,
       RegOp.update "w1" true 2,
       RegOp.remove "w0"]) = true := by
  have h := C1_presence_implies_healthy
    [{ id := "w0", host := "10.0.0.1", httpPort := 80, grpcPort := 81, isHealthy := true, lastHealthCheck := 0 }]
    [RegOp.register "w1" "10.0.0.5" 8080 9090 1,
     RegOp.update "w1" true 2,
     RegOp.remove "w0"] (by decide) (by decide)
  rw [allHealthyB, List.all_eq_true]
  intro p hp
  exact h p hp

/-- C2, counterexample: registering `"w1"` at host `"10.0.0.5"` port 8080
and then re-registering the same identity at host `"10.0.0.9"` port 9999
leaves the entry with the ORIGINAL host and ports (only the health flag
and timestamp are touched), while the most recently supplied host
`"10.0.0.9"` differs — so the claim that the entry carries the most
recently supplied host and port is false. -/
theorem C2_counterexample :
    mapLookup ((registerWorker
        (registerWorker [] "w1" "10.0.0.5" 8080 9090 0).cache
        "w1" "10.0.0.9" 9999 7777 1).cache) "w1" =
      some { host := "10.0.0.5", httpPort := 8080, grpcPort := 9090,
             isHealthy := true, lastHealthCheck := 1 } ∧
    ("10.0.0.5" : String) ≠ "10.0.0.9" ∧ (8080 : Int) ≠ 9999 := by
  refine ⟨rfl, by decide, by decide⟩

/-- C2 (amended): for every identity already present in the cache, a
second RegisterWorker call with the same identity but different
host/httpPort leaves exactly one entry for that identity; that entry is
marked healthy with a refreshed lastHealthCheck but RETAINS the host and
ports it already had — the newly supplied network location is ignored. -/
theorem C2_reregistration_single_entry (m : WMap) (id host2 : String)
    (httpPort2 grpcPort2 : Int) (now2 : Nat) (w : Worker)
    (hn : keysNodup m) (hmem : mapLookup m id = some w) :
    countKey (registerWorker m id host2 httpPort2 grpcPort2 now2).cache id = 1 ∧
    mapLookup (registerWorker m id host2 httpPort2 grpcPort2 now2).cache id =
      some { w with isHealthy := true, lastHealthCheck := now2 } := by
  have hcache : (registerWorker m id host2 httpPort2 grpcPort2 now2).cache =
      mapInsert m id { w with isHealthy := true, lastHealthCheck := now2 } := by
    simp [registerWorker, hmem]
  rw [hcache]
  constructor
  · have hle := countKey_le_one
      (mapInsert m id { w with isHealthy := true, lastHealthCheck := now2 }) id
      (keysNodup_insert m id _ hn)
    have hpos := countKey_pos_of_lookup
      (mapInsert m id { w with isHealthy := true, lastHealthCheck := now2 }) id
      { w with isHealthy := true, lastHealthCheck := now2 }
      (mapLookup_insert_self m id _)
    omega
  · exact mapLookup_insert_self m id _

/-- C2 witness: the amended statement at a concrete cache. -/
theorem C2_witness :
    countKey (registerWorker
      [("w1", { host := "10.0.0.5", httpPort := 8080, grpcPort := 9090,
                isHealthy := true, lastHealthCheck := 0 })]
      "w1" "10.0.0.9" 9999 7777 1).cache "w1" = 1 ∧
    mapLookup (registerWorker
      [("w1", { host := "10.0.0.5", httpPort := 8080, grpcPort := 9090,
                isHealthy := true, lastHealthCheck := 0 })]
      "w1" "10.0.0.9" 9999 7777 1).cache "w1" =
      some { host := "10.0.0.5", httpPort := 8080, grpcPort := 9090,
             isHealthy := true, lastHealthCheck := 1 } := by
  exact C2_reregistration_single_entry _ "w1" "10.0.0.9" 9999 7777 1
    { host := "10.0.0.5", httpPort := 8080, grpcPort := 9090,
      isHealthy := true, lastHealthCheck := 0 } (by decide) (by decide)

/-- C3, evaluation at the failing input: `NewRegistry` initialises only
`workers`, `db` and `checkInterval` in the struct literal, leaving
`stopHealthCheck` as the zero value nil; so the very first
`StopHealthCheck()` executes `close(nil)`, which panics, and the loop's
`select` receive on the nil channel can never fire, so the health-check
loop cannot be made to exit.  The claim (one-shot stop completes without
fault and stops the loop) is what the spec requires; the code's missing
`make(chan struct{})` is the slip. -/
theorem C3_stop_faults_on_fresh_registry :
    newRegistry (Except.ok []) 5 =
      Except.ok { workers := [], checkInterval := 5,
                  stopHealthCheck := ChanState.nilChan } ∧
    stopHealthCheckOp { workers := [], checkInterval := 5,
                        stopHealthCheck := ChanState.nilChan } =
      Except.error GoFault.closeOfNilChannel ∧
    loopCanExit { workers := [], checkInterval := 5,
                  stopHealthCheck := ChanState.nilChan } = false := by
  exact ⟨rfl, rfl, rfl⟩

/-- C10, evaluation at the failing input: the sweep's snapshot step
`workers := r.workers` copies only the map reference, so after a
concurrent `RegisterWorker("w2", ...)` lands between the snapshot and the
iteration, the structure the sweep iterates differs from the cache
contents at snapshot time and contains the concurrently added entry —
the claimed copy-on-read isolation does not hold in the code. -/
theorem C10_snapshot_is_live_reference :
    sweepSnapshot { workersRef := 0 } = 0 ∧
    sweepIterated
        (registerInHeap
          { cells := [[("w1", { host := "10.0.0.5", httpPort := 8080, grpcPort := 9090, isHealthy := true, lastHealthCheck := 0 })]] }
          { workersRef := 0 } "w2" "10.0.0.6" 8081 9091 1)
        (sweepSnapshot { workersRef := 0 }) ≠
      readRef
        { cells := [[("w1", { host := "10.0.0.5", httpPort := 8080, grpcPort := 9090, isHealthy := true, lastHealthCheck := 0 })]] }
        (sweepSnapshot { workersRef := 0 }) ∧
    mapLookup
        (sweepIterated
          (registerInHeap
            { cells := [[("w1", { host := "10.0.0.5", httpPort := 8080, grpcPort := 9090, isHealthy := true, lastHealthCheck := 0 })]] }
            { workersRef := 0 } "w2" "10.0.0.6" 8081 9091 1)
          (sweepSnapshot { workersRef := 0 })) "w2" ≠ none := by
  refine ⟨rfl, by decide, by decide⟩

/-- C4: for every worker probed by the sweep, an individual attempt
counts as healthy iff the HTTP response status is exactly 200 (any
request-construction failure, transport error or non-200 status fails
the attempt); at most `retries = 4` attempts are made; if attempt `k+1`
(1-based) is the first to succeed the protocol stops there reporting
healthy, and on success the sweep step marks the worker healthy via
`UpdateHealth(key, true)`; the worker is classified unhealthy only after
all 4 attempts fail. -/
theorem C4_probe_with_retry_protocol (att : Nat → ProbeResp) :
    (∀ resp, getWorkerHealth resp = true ↔ resp = ProbeResp.status 200) ∧
    (probeWithRetry att).2 ≤ retries ∧
    (∀ k, k < retries → getWorkerHealth (att k) = true →
      (∀ j, j < k → getWorkerHealth (att j) = false) →
      probeWithRetry att = (true, k + 1)) ∧
    ((∀ j, j < retries → getWorkerHealth (att j) = false) →
      probeWithRetry att = (false, retries)) ∧
    (∀ (now : Nat) (acc : RegEffects) (key : String)
        (attF : String → Nat → ProbeResp),
      attF key = att → (probeWithRetry att).1 = true →
      (sweepStep attF now acc key).cache =
        (updateHealth acc.cache key true now).cache) := by
  refine ⟨?_, ?_, ?_, ?_, ?_⟩
  · intro resp
    cases resp <;> simp [getWorkerHealth]
  · exact probeLoop_snd_le att retries 0
  · intro k hk hsucc hfail
    exact probeLoop_first_success att k 0 retries hk (by simpa using hsucc)
      (fun j hj => by simpa using hfail j hj)
  · exact probeWithRetry_all_fail att
  · intro now acc key attF hatt hpr
    unfold sweepStep
    rw [hatt, if_pos hpr]

/-- C4 witness: a probe whose second attempt returns 200 succeeds after
exactly 2 attempts; a probe answering 500 on every attempt is classified
unhealthy after exactly 4 attempts. -/
theorem C4_witness :
    probeWithRetry
      (fun j => if j = 1 then ProbeResp.status 200 else ProbeResp.transportError) =
      (true, 2) ∧
    probeWithRetry (fun _ => ProbeResp.status 500) = (false, 4) := by
  constructor
  · exact (C4_probe_with_retry_protocol
      (fun j => if j = 1 then ProbeResp.status 200 else ProbeResp.transportError)).2.2.1
      1 (by decide) (by decide) (by decide)
  · exact (C4_probe_with_retry_protocol (fun _ => ProbeResp.status 500)).2.2.2.1
      (by decide)

/-- C5: for every worker in the sweep's snapshot whose 4 probe attempts
all fail, after the sweep the worker is absent from the cache and a
store delete for its identity has been issued; the cache eviction stands
whatever the store delete's outcome; a worker with at least one
successful attempt stays in the cache, marked healthy. -/
theorem C5_eviction_after_exhaustion (m : WMap) (att : String → Nat → ProbeResp)
    (now : Nat) (key : String) (w : Worker)
    (hn : keysNodup m) (hmem : mapLookup m key = some w) :
    ((∀ j, j < retries → getWorkerHealth (att key j) = false) →
      mapLookup (checkAllWorkers m att now).cache key = none ∧
      StoreOp.deleteWorker key ∈ (checkAllWorkers m att now).storeOps) ∧
    ((∃ j, j < retries ∧ getWorkerHealth (att key j) = true) →
      ∃ w2, mapLookup (checkAllWorkers m att now).cache key = some w2 ∧
        w2.isHealthy = true) ∧
    (∀ (mm : WMap) (o : StoreOutcome),
      mapLookup (removeWorkerStore mm key o) key = none) := by
  have hkeys : key ∈ m.map Prod.fst := lookup_mem_keys m key w hmem
  obtain ⟨pre, post, hsplit⟩ := List.append_of_mem hkeys
  have hn2 : (pre ++ key :: post).Nodup := by
    unfold keysNodup at hn
    rw [hsplit] at hn
    exact hn
  rw [List.nodup_append] at hn2
  obtain ⟨hpre, hcons, hdisj⟩ := hn2
  have hkpost : key ∉ post := (List.nodup_cons.mp hcons).1
  have hkpre : key ∉ pre := fun hm2 => hdisj hm2 (List.mem_cons_self key post)
  have hfold : checkAllWorkers m att now =
      post.foldl (sweepStep att now)
        (sweepStep att now
          (pre.foldl (sweepStep att now)
            { cache := m, storeOps := [], metrics := [] }) key) := by
    rw [checkAllWorkers, hsplit, List.foldl_append, List.foldl_cons]
  have hacc1 : mapLookup (pre.foldl (sweepStep att now)
      { cache := m, storeOps := [], metrics := [] }).cache key = some w := by
    rw [sweepFold_lookup_skip att now pre _ key hkpre]
    exact hmem
  refine ⟨?_, ?_, ?_⟩
  · intro hfail
    have hprf : ¬ ((probeWithRetry (att key)).1 = true) := by
      rw [probeWithRetry_all_fail (att key) hfail]
      simp
    have hstepc : (sweepStep att now
        (pre.foldl (sweepStep att now)
          { cache := m, storeOps := [], metrics := [] }) key).cache =
        mapErase (pre.foldl (sweepStep att now)
          { cache := m, storeOps := [], metrics := [] }).cache key := by
      unfold sweepStep
      rw [if_neg hprf]
      rfl
    have hstepo : (sweepStep att now
        (pre.foldl (sweepStep att now)
          { cache := m, storeOps := [], metrics := [] }) key).storeOps =
        (pre.foldl (sweepStep att now)
          { cache := m, storeOps := [], metrics := [] }).storeOps ++
          [StoreOp.deleteWorker key] := by
      unfold sweepStep
      rw [if_neg hprf]
      rfl
    constructor
    · rw [hfold, sweepFold_lookup_skip att now post _ key hkpost, hstepc]
      exact mapLookup_erase_self _ key
    · rw [hfold]
      apply sweepFold_storeOps_mono
      rw [hstepo]
      exact List.mem_append_right _ (List.mem_singleton.mpr rfl)
  · intro hsucc
    have hpr : (probeWithRetry (att key)).1 = true :=
      (probeWithRetry_true_iff (att key)).mpr hsucc
    obtain ⟨w2, hw2, hw2h⟩ := updateHealth_true_lookup_self _ key now w hacc1
    refine ⟨w2, ?_, hw2h⟩
    have hstepc : (sweepStep att now
        (pre.foldl (sweepStep att now)
          { cache := m, storeOps := [], metrics := [] }) key).cache =
        (updateHealth (pre.foldl (sweepStep att now)
          { cache := m, storeOps := [], metrics := [] }).cache key true now).cache := by
      unfold sweepStep
      rw [if_pos hpr]
    rw [hfold, sweepFold_lookup_skip att now post _ key hkpost, hstepc]
    exact hw2
  · intro mm o
    cases o <;> simp [removeWorkerStore, mapLookup_erase_self]

/-- C5 witness: in a two-worker cache where every probe of `"w1"` hits a
transport error and `"w2"` answers 200 on the first attempt, the sweep
evicts `"w1"` (cache delete plus store delete) and keeps `"w2"`
healthy. -/
theorem C5_witness :
    mapLookup (checkAllWorkers
      [("w1", { host := "10.0.0.5", httpPort := 8080, grpcPort := 9090, isHealthy := true, lastHealthCheck := 0 }), ("w2", { host := "10.0.0.6", httpPort := 8081, grpcPort := 9091, isHealthy := true, lastHealthCheck := 0 })]
      (fun id _ => if id = "w1" then ProbeResp.transportError else ProbeResp.status 200)
      5).cache "w1" = none ∧
    StoreOp.deleteWorker "w1" ∈ (checkAllWorkers
      [("w1", { host := "10.0.0.5", httpPort := 8080, grpcPort := 9090, isHealthy := true, lastHealthCheck := 0 }), ("w2", { host := "10.0.0.6", httpPort := 8081, grpcPort := 9091, isHealthy := true, lastHealthCheck := 0 })]
      (fun id _ => if id = "w1" then ProbeResp.transportError else ProbeResp.status 200)
      5).storeOps ∧
    (∃ w2, mapLookup (checkAllWorkers
      [("w1", { host := "10.0.0.5", httpPort := 8080, grpcPort := 9090, isHealthy := true, lastHealthCheck := 0 }), ("w2", { host := "10.0.0.6", httpPort := 8081, grpcPort := 9091, isHealthy := true, lastHealthCheck := 0 })]
      (fun id _ => if id = "w1" then ProbeResp.transportError else ProbeResp.status 200)
      5).cache "w2" = some w2 ∧ w2.isHealthy = true) := by
  have h1 := C5_eviction_after_exhaustion
    [("w1", { host := "10.0.0.5", httpPort := 8080, grpcPort := 9090, isHealthy := true, lastHealthCheck := 0 }), ("w2", { host := "10.0.0.6", httpPort := 8081, grpcPort := 9091, isHealthy := true, lastHealthCheck := 0 })]
    (fun id _ => if id = "w1" then ProbeResp.transportError else ProbeResp.status 200)
    5 "w1" { host := "10.0.0.5", httpPort := 8080, grpcPort := 9090, isHealthy := true, lastHealthCheck := 0 }
    (by decide) (by decide)
  have h2 := C5_eviction_after_exhaustion
    [("w1", { host := "10.0.0.5", httpPort := 8080, grpcPort := 9090, isHealthy := true, lastHealthCheck := 0 }), ("w2", { host := "10.0.0.6", httpPort := 8081, grpcPort := 9091, isHealthy := true, lastHealthCheck := 0 })]
    (fun id _ => if id = "w1" then ProbeResp.transportError else ProbeResp.status 200)
    5 "w2" { host := "10.0.0.6", httpPort := 8081, grpcPort := 9091, isHealthy := true, lastHealthCheck := 0 }
    (by decide) (by decide)
  exact ⟨(h1.1 (by decide)).1, (h1.1 (by decide)).2,
    h2.2.1 ⟨0, by decide, by decide⟩⟩

/-- C6: RegisterWorker postcondition — on a cache miss a fresh entry
with `isHealthy=true` and `lastHealthCheck=now` is inserted and a store
insert is written through; on a hit the entry is marked healthy with a
refreshed timestamp and a store health update (not a second insert) is
written through; afterwards the cache holds at most one entry for the
identity. -/
theorem C6_register_postcondition (m : WMap) (id host : String)
    (httpPort grpcPort : Int) (now : Nat) (hn : keysNodup m) :
    (mapLookup m id = none →
      mapLookup (registerWorker m id host httpPort grpcPort now).cache id =
        some { host := host, httpPort := httpPort, grpcPort := grpcPort, isHealthy := true, lastHealthCheck := now } ∧
      (registerWorker m id host httpPort grpcPort now).storeOps =
        [StoreOp.insertWorker id host httpPort grpcPort]) ∧
    (∀ w, mapLookup m id = some w →
      mapLookup (registerWorker m id host httpPort grpcPort now).cache id =
        some { w with isHealthy := true, lastHealthCheck := now } ∧
      (registerWorker m id host httpPort grpcPort now).storeOps =
        [StoreOp.updateWorkerHealth id true]) ∧
    countKey (registerWorker m id host httpPort grpcPort now).cache id ≤ 1 := by
  refine ⟨?_, ?_, ?_⟩
  · intro hm
    constructor
    · simp [registerWorker, hm, mapLookup_insert_self]
    · simp [registerWorker, hm]
  · intro w hm
    constructor
    · simp [registerWorker, hm, mapLookup_insert_self]
    · simp [registerWorker, hm]
  · have hsub : ∃ w2, (registerWorker m id host httpPort grpcPort now).cache =
        mapInsert m id w2 := by
      cases hm : mapLookup m id with
      | none => exact ⟨{ host := host, httpPort := httpPort, grpcPort := grpcPort, isHealthy := true, lastHealthCheck := now }, by simp [registerWorker, hm]⟩
      | some w => exact ⟨{ w with isHealthy := true, lastHealthCheck := now }, by simp [registerWorker, hm]⟩
    obtain ⟨w2, hw2⟩ := hsub
    rw [hw2]
    exact countKey_le_one _ id (keysNodup_insert m id w2 hn)

/-- C6 witness: re-registering an existing identity refreshes its health
and timestamp, writes a health update through, and keeps a single
entry. -/
theorem C6_witness :
    mapLookup (registerWorker
      [("w1", { host := "10.0.0.5", httpPort := 8080, grpcPort := 9090, isHealthy := false, lastHealthCheck := 0 })]
      "w1" "10.0.0.9" 9999 7777 3).cache "w1" =
      some { host := "10.0.0.5", httpPort := 8080, grpcPort := 9090, isHealthy := true, lastHealthCheck := 3 } ∧
    (registerWorker
      [("w1", { host := "10.0.0.5", httpPort := 8080, grpcPort := 9090, isHealthy := false, lastHealthCheck := 0 })]
      "w1" "10.0.0.9" 9999 7777 3).storeOps = [StoreOp.updateWorkerHealth "w1" true] ∧
    countKey (registerWorker
      [("w1", { host := "10.0.0.5", httpPort := 8080, grpcPort := 9090, isHealthy := false, lastHealthCheck := 0 })]
      "w1" "10.0.0.9" 9999 7777 3).cache "w1" ≤ 1 := by
  have h := C6_register_postcondition
    [("w1", { host := "10.0.0.5", httpPort := 8080, grpcPort := 9090, isHealthy := false, lastHealthCheck := 0 })]
    "w1" "10.0.0.9" 9999 7777 3 (by decide)
  have h2 := h.2.1
    { host := "10.0.0.5", httpPort := 8080, grpcPort := 9090, isHealthy := false, lastHealthCheck := 0 }
    (by decide)
  exact ⟨h2.1, h2.2, h.2.2⟩

/-- C7: UpdateHealth frame conditions — an absent identity leaves the
whole result untouched (no entry created, no store write, no metrics);
an unchanged health value leaves the entry, the store and the metrics
untouched (including the timestamp); only a changed value updates flag
and timestamp, writes the change through and emits metrics. -/
theorem C7_updateHealth_frame (m : WMap) (id : String) (h : Bool) (now : Nat) :
    (mapLookup m id = none →
      updateHealth m id h now = { cache := m, storeOps := [], metrics := [] }) ∧
    (∀ w, mapLookup m id = some w → w.isHealthy = h →
      updateHealth m id h now = { cache := m, storeOps := [], metrics := [] }) ∧
    (∀ w, mapLookup m id = some w → w.isHealthy ≠ h →
      (updateHealth m id h now).cache =
        mapInsert m id { w with isHealthy := h, lastHealthCheck := now } ∧
      (updateHealth m id h now).storeOps = [StoreOp.updateWorkerHealth id h] ∧
      (updateHealth m id h now).metrics =
        [MetricEvent.recordWorkerHealth id
          (getURLFromHostPort w.host w.httpPort) h]) := by
  refine ⟨?_, ?_, ?_⟩
  · intro hm
    simp [updateHealth, hm]
  · intro w hm hh
    simp [updateHealth, hm, hh]
  · intro w hm hh
    refine ⟨?_, ?_, ?_⟩ <;> simp [updateHealth, hm, hh]

/-- C7 witness: the three frame cases at a concrete cache: absent
identity is a complete no-op, an identical health value is a complete
no-op, and a changed value writes exactly one store update through. -/
theorem C7_witness :
    updateHealth
      [("w1", { host := "10.0.0.5", httpPort := 8080, grpcPort := 9090, isHealthy := true, lastHealthCheck := 0 })]
      "zz" false 5 =
      { cache := [("w1", { host := "10.0.0.5", httpPort := 8080, grpcPort := 9090, isHealthy := true, lastHealthCheck := 0 })], storeOps := [], metrics := [] } ∧
    updateHealth
      [("w1", { host := "10.0.0.5", httpPort := 8080, grpcPort := 9090, isHealthy := true, lastHealthCheck := 0 })]
      "w1" true 5 =
      { cache := [("w1", { host := "10.0.0.5", httpPort := 8080, grpcPort := 9090, isHealthy := true, lastHealthCheck := 0 })], storeOps := [], metrics := [] } ∧
    (updateHealth
      [("w1", { host := "10.0.0.5", httpPort := 8080, grpcPort := 9090, isHealthy := true, lastHealthCheck := 0 })]
      "w1" false 5).storeOps = [StoreOp.updateWorkerHealth "w1" false] := by
  refine ⟨?_, ?_, ?_⟩
  · exact (C7_updateHealth_frame
      [("w1", { host := "10.0.0.5", httpPort := 8080, grpcPort := 9090, isHealthy := true, lastHealthCheck := 0 })]
      "zz" false 5).1 (by decide)
  · exact (C7_updateHealth_frame
      [("w1", { host := "10.0.0.5", httpPort := 8080, grpcPort := 9090, isHealthy := true, lastHealthCheck := 0 })]
      "w1" true 5).2.1
      { host := "10.0.0.5", httpPort := 8080, grpcPort := 9090, isHealthy := true, lastHealthCheck := 0 }
      (by decide) (by decide)
  · exact ((C7_updateHealth_frame
      [("w1", { host := "10.0.0.5", httpPort := 8080, grpcPort := 9090, isHealthy := true, lastHealthCheck := 0 })]
      "w1" false 5).2.2
      { host := "10.0.0.5", httpPort := 8080, grpcPort := 9090, isHealthy := true, lastHealthCheck := 0 }
      (by decide) (by decide)).2.1

/-- C8: store errors are invisible to callers — for RegisterWorker,
UpdateHealth and RemoveWorker the resulting cache coincides with the
outcome-free semantics, is identical whether the triggered store call
succeeded or failed, the operations' result type carries no error, and
the cache mutation is applied: after RegisterWorker the identity is
present (and healthy), after RemoveWorker it is absent. -/
theorem C8_store_errors_invisible (m : WMap) (id host : String)
    (httpPort grpcPort : Int) (now : Nat) (h : Bool) (o o2 : StoreOutcome) :
    registerWorkerStore m id host httpPort grpcPort now o =
      (registerWorker m id host httpPort grpcPort now).cache ∧
    updateHealthStore m id h now o = (updateHealth m id h now).cache ∧
    removeWorkerStore m id o = (removeWorker m id).cache ∧
    registerWorkerStore m id host httpPort grpcPort now o =
      registerWorkerStore m id host httpPort grpcPort now o2 ∧
    updateHealthStore m id h now o = updateHealthStore m id h now o2 ∧
    removeWorkerStore m id o = removeWorkerStore m id o2 ∧
    (∃ w2, mapLookup (registerWorkerStore m id host httpPort grpcPort now o) id =
      some w2 ∧ w2.isHealthy = true) ∧
    mapLookup (removeWorkerStore m id o) id = none := by
  have hreg : ∀ o3, registerWorkerStore m id host httpPort grpcPort now o3 =
      (registerWorker m id host httpPort grpcPort now).cache := by
    intro o3
    cases hm : mapLookup m id <;> cases o3 <;>
      simp [registerWorkerStore, registerWorker, hm]
  have hupd : ∀ o3, updateHealthStore m id h now o3 =
      (updateHealth m id h now).cache := by
    intro o3
    cases hm : mapLookup m id with
    | none => cases o3 <;> simp [updateHealthStore, updateHealth, hm]
    | some w =>
        by_cases hh : w.isHealthy ≠ h
        · cases o3 <;> simp [updateHealthStore, updateHealth, hm, hh]
        · cases o3 <;> simp [updateHealthStore, updateHealth, hm, hh]
  have hrem : ∀ o3, removeWorkerStore m id o3 = (removeWorker m id).cache := by
    intro o3
    cases o3 <;> rfl
  have hlook : ∃ w2,
      mapLookup ((registerWorker m id host httpPort grpcPort now).cache) id =
        some w2 ∧ w2.isHealthy = true := by
    cases hm : mapLookup m id with
    | none => exact ⟨{ host := host, httpPort := httpPort, grpcPort := grpcPort, isHealthy := true, lastHealthCheck := now }, by simp [registerWorker, hm, mapLookup_insert_self], rfl⟩
    | some w => exact ⟨{ w with isHealthy := true, lastHealthCheck := now }, by simp [registerWorker, hm, mapLookup_insert_self], rfl⟩
  refine ⟨hreg o, hupd o, hrem o, (hreg o).trans (hreg o2).symm,
    (hupd o).trans (hupd o2).symm, (hrem o).trans (hrem o2).symm, ?_, ?_⟩
  · rw [hreg o]
    exact hlook
  · rw [hrem o]
    exact mapLookup_erase_self m id

/-- C9: startup round-trip — every record in the store's ListAll result
appears in the cache right after construction with its stored host,
ports, health flag and timestamp, before any sweep; a ListAll failure
aborts construction. -/
theorem C9_startup_roundtrip (recs : List DBRecord) (r : DBRecord)
    (interval : Nat) (hmem : r ∈ recs)
    (hnodup : (recs.map DBRecord.id).Nodup) :
    (∃ reg, newRegistry (Except.ok recs) interval = Except.ok reg ∧
      mapLookup reg.workers r.id = some r.toWorker ∧
      reg.checkInterval = interval) ∧
    (∀ e, newRegistry (Except.error e) interval = Except.error e) := by
  constructor
  · refine ⟨{ workers := hydrateFrom [] recs, checkInterval := interval, stopHealthCheck := ChanState.nilChan },
      rfl, ?_, rfl⟩
    exact hydrateFrom_lookup_mem recs r hmem hnodup []
  · intro e
    rfl

/-- C9 witness: two stored records both surface in the cache of a freshly
constructed registry with their stored fields. -/
theorem C9_witness :
    ∃ reg, newRegistry (Except.ok
      [{ id := "w1", host := "10.0.0.5", httpPort := 8080, grpcPort := 9090, isHealthy := true, lastHealthCheck := 11 }, { id := "w2", host := "10.0.0.6", httpPort := 8081, grpcPort := 9091, isHealthy := false, lastHealthCheck := 12 }])
      7 = Except.ok reg ∧
      mapLookup reg.workers "w2" =
        some { host := "10.0.0.6", httpPort := 8081, grpcPort := 9091, isHealthy := false, lastHealthCheck := 12 } ∧
      reg.checkInterval = 7 := by
  exact (C9_startup_roundtrip
    [{ id := "w1", host := "10.0.0.5", httpPort := 8080, grpcPort := 9090, isHealthy := true, lastHealthCheck := 11 }, { id := "w2", host := "10.0.0.6", httpPort := 8081, grpcPort := 9091, isHealthy := false, lastHealthCheck := 12 }]
    { id := "w2", host := "10.0.0.6", httpPort := 8081, grpcPort := 9091, isHealthy := false, lastHealthCheck := 12 }
    7 (by decide) (by decide)).1

end RegistryService
